import Mathlib

/-!
Shallow embedding of the WAL decoder / apply engine of `wal_analyzer`.

Bytes are modelled as `Nat` (every primitive reader reduces its byte
modulo 256, mirroring the `u8` representation on the wire).  An input
byte stream is a `List Nat`.  Each nom-style parser of the source is
embedded as a function from the input list to a `PResult`, which keeps
the four outcomes of `nom::IResult` plus an explicit `panic` outcome
for the places where the Rust code can panic (`todo!`, `unwrap`,
slicing out of bounds, arithmetic underflow).

The module tree mirrors the repository:
  * `Wal.Rec`    — src/xlog/record.rs
  * `Wal.Blk`    — src/xlog/block.rs
  * `Wal.Heap`   — src/xlog/operation/heap.rs
  * `Wal.Apply`  — src/apply.rs
  * `Wal.Flat`   — the flat drafts src/xlog_record.rs, src/xlog_block.rs
  * `Wal.Reader` — src/xlog_reader.rs
  * `Inspect`    — inspect/src/page.rs and inspect/src/pg_lsn.rs
-/

namespace Wal

/-- Error taxonomy of src/error.rs (`XLogError`).  The nom-internal
parse error keeps the remaining input it was raised on. -/
inductive XLogError where
  | eof
  | invalidPageHeader
  | emptyRecord
  | endBlock
  | missingBlockDataLen
  | invalidBlockImageHole (holeOffset holeLength bimgLen : Nat)
  | invalidBlockId (previous : Option Nat) (current : Nat)
  | outOfOrderBlock
  | invalidForkNumber (code : Nat)
  | invalidResourceManager (id : Nat)
  | unexpectedBlockDataLen (len : Nat)
  | incorrectId (id : Nat)
  | incorrectPageType
  | invalidDataLen (consumed expected : Nat)
  | leftoverBytes (bytes : List Nat)
  | incorrectPaddingValue (bytes : List Nat)
  | incorrectPaddingLength (n : Nat)
  | invalidRecord (detail : String)
  | nomParseError (input : List Nat)
  deriving DecidableEq, Repr

/-- Outcome of a nom-style parser: `ok` carries the remaining input and
the parsed value; `err`/`failure` are `nom::Err::Error` / `Failure`;
`incomplete` is `nom::Err::Incomplete`; `panic` models a Rust panic. -/
inductive PResult (α : Type) where
  | ok (rest : List Nat) (val : α)
  | err (e : XLogError)
  | failure (e : XLogError)
  | incomplete (needed : Nat)
  | panic (msg : String)
  deriving DecidableEq, Repr

/-- the nom little-endian `le_u8`: one byte (reduced mod 256, the `u8`
range); on empty input the complete-variant parsers raise an Eof-kind
`NomParseError`. -/
def le_u8 (i : List Nat) : PResult Nat :=
  match i with
  | [] => .err (.nomParseError i)
  | b :: rest => .ok rest (b % 256)

/-- the nom `le_u16`: two bytes, little endian. -/
def le_u16 (i : List Nat) : PResult Nat :=
  match i with
  | b0 :: b1 :: rest => .ok rest (b0 % 256 + 256 * (b1 % 256))
  | _ => .err (.nomParseError i)

/-- the nom `le_u32`: four bytes, little endian. -/
def le_u32 (i : List Nat) : PResult Nat :=
  match i with
  | b0 :: b1 :: b2 :: b3 :: rest =>
      .ok rest (b0 % 256 + 256 * (b1 % 256) + 256 ^ 2 * (b2 % 256) + 256 ^ 3 * (b3 % 256))
  | _ => .err (.nomParseError i)

/-- the nom `le_u64`: eight bytes, little endian. -/
def le_u64 (i : List Nat) : PResult Nat :=
  match i with
  | b0 :: b1 :: b2 :: b3 :: b4 :: b5 :: b6 :: b7 :: rest =>
      .ok rest (b0 % 256 + 256 * (b1 % 256) + 256 ^ 2 * (b2 % 256) + 256 ^ 3 * (b3 % 256)
        + 256 ^ 4 * (b4 % 256) + 256 ^ 5 * (b5 % 256) + 256 ^ 6 * (b6 % 256)
        + 256 ^ 7 * (b7 % 256))
  | _ => .err (.nomParseError i)

/-- the nom `take(n)`: the first `n` bytes as the value. -/
def takeBytes (n : Nat) (i : List Nat) : PResult (List Nat) :=
  if i.length < n then .err (.nomParseError i)
  else .ok (i.drop n) (i.take n)

/-- The `?` operator: continue on `ok`, propagate every other outcome. -/
def PResult.andThen {α β : Type} (r : PResult α) (f : List Nat → α → PResult β) : PResult β :=
  match r with
  | .ok rest v => f rest v
  | .err e => .err e
  | .failure e => .failure e
  | .incomplete n => .incomplete n
  | .panic m => .panic m

/-- Resource-manager ids of src/xlog/record.rs (`RmgrId`). -/
inductive RmgrId where
  | Xlog | Transaction | Storage | Clog | Database | Tablespace | MultiXact
  | RelMap | Standby | Heap | Heap2 | Btree | Hash | Gin | Gist | Sequence
  | Spgist | Brin | CommitTs | ReplicationOrigin | Generic | LogicalMsg
  deriving DecidableEq, Repr

/-- `impl TryFrom<u8> for RmgrId` of src/xlog/record.rs: note 0x09 is
Heap2 and 0x0a is Heap. -/
def RmgrId.tryFrom (byte : Nat) : Option RmgrId :=
  match byte with
  | 0x00 => some .Xlog
  | 0x01 => some .Transaction
  | 0x02 => some .Storage
  | 0x03 => some .Clog
  | 0x04 => some .Database
  | 0x05 => some .Tablespace
  | 0x06 => some .MultiXact
  | 0x07 => some .RelMap
  | 0x08 => some .Standby
  | 0x09 => some .Heap2
  | 0x0a => some .Heap
  | 0x0b => some .Btree
  | 0x0c => some .Hash
  | 0x0d => some .Gin
  | 0x0e => some .Gist
  | 0x0f => some .Sequence
  | 0x10 => some .Spgist
  | 0x11 => some .Brin
  | 0x12 => some .CommitTs
  | 0x13 => some .ReplicationOrigin
  | 0x14 => some .Generic
  | 0x15 => some .LogicalMsg
  | _ => none

/-- `consume_padding` of src/xlog/record.rs (lines 177-192): early
return on size 0, take `size` bytes, reject size > 8, and reject the
padding when `padding.iter().all(|x| *x != 0)` holds (the literal source
condition). -/
def consume_padding (i : List Nat) (size : Nat) : PResult Unit :=
  if size = 0 then .ok i ()
  else
    (takeBytes size i).andThen fun i padding =>
    if size > 8 then .err (.incorrectPaddingLength size)
    else if padding.all (fun x => x != 0) then .err (.incorrectPaddingValue padding)
    else .ok i ()

/-- `XLogRecordHeader` of src/xlog/record.rs. -/
structure XLogRecordHeader where
  xl_tot_len : Nat
  xl_xid : Nat
  xl_prev : Nat
  special_rel_update : Bool
  check_consistency : Bool
  rmgr_info : Nat
  xl_rmid : RmgrId
  xl_crc : Nat
  deriving DecidableEq, Repr

/-- `parse_xlog_record_header` of src/xlog/record.rs: 24 header bytes;
`xl_tot_len = 0` is `EmptyRecord`; unknown rmgr id fails; the final
length check needs `xl_tot_len - 24` more bytes (u32 subtraction that
panics in Rust when `xl_tot_len < 24`). -/
def parse_xlog_record_header (i : List Nat) : PResult XLogRecordHeader :=
  if i.length < 24 then .incomplete (24 - i.length)
  else
  (le_u32 i).andThen fun i xl_tot_len =>
  if xl_tot_len = 0 then .err .emptyRecord
  else
  (le_u32 i).andThen fun i xl_xid =>
  (le_u64 i).andThen fun i xl_prev =>
  (le_u8 i).andThen fun i xl_info =>
  let rmgr_info := xl_info &&& 0xf0
  let special_rel_update := xl_info &&& 0x01 != 0
  let check_consistency := xl_info &&& 0x02 != 0
  (le_u8 i).andThen fun i rmid =>
  match RmgrId.tryFrom rmid with
  | none => .err (.invalidResourceManager rmid)
  | some xl_rmid =>
  (consume_padding i 2).andThen fun i _ =>
  (le_u32 i).andThen fun i xl_crc =>
  if xl_tot_len < 24 then .panic "attempt to subtract with overflow"
  else
  let data_len := xl_tot_len - 24
  if i.length < data_len then .incomplete data_len
  else .ok i {
    xl_tot_len := xl_tot_len
    xl_xid := xl_xid
    xl_prev := xl_prev
    special_rel_update := special_rel_update
    check_consistency := check_consistency
    rmgr_info := rmgr_info
    xl_rmid := xl_rmid
    xl_crc := xl_crc }

end Wal

namespace Wal.Blk

/-- `ForkNumber` of src/xlog/block.rs. -/
inductive ForkNumber where
  | Main | Fsm | VisibilityMap | Init
  deriving DecidableEq, Repr

/-- `impl TryFrom<u8> for ForkNumber`. -/
def ForkNumber.tryFrom (byte : Nat) : Option ForkNumber :=
  match byte with
  | 0x00 => some .Main
  | 0x01 => some .Fsm
  | 0x02 => some .VisibilityMap
  | 0x03 => some .Init
  | _ => none

/-- `RelFileLocator` of src/xlog/block.rs. -/
structure RelFileLocator where
  spc_node : Nat
  db_node : Nat
  rel_node : Nat
  deriving DecidableEq, Repr

/-- `PageId` of src/xlog/block.rs: the page-map key. -/
structure PageId where
  locator : RelFileLocator
  blockno : Nat
  fork : ForkNumber
  deriving DecidableEq, Repr

/-- `XLBImage` of src/xlog/block.rs: a decoded full-page image. -/
structure XLBImage where
  apply_image : Bool
  hole_offset : Nat
  hole_length : Nat
  bimg_len : Nat
  bimg_info : Nat
  bkp_image : List Nat
  deriving DecidableEq, Repr

/-- `XLBData` of src/xlog/block.rs: a decoded block reference. -/
structure XLBData where
  blk_id : Nat
  page_id : Option PageId
  flags : Nat
  image : Option XLBImage
  has_data : Bool
  data_len : Nat
  data : Option (List Nat)
  deriving DecidableEq, Repr

/-- `parse_relfilenode` of src/xlog/block.rs. -/
def parse_relfilenode (i : List Nat) : PResult RelFileLocator :=
  (le_u32 i).andThen fun i spc_node =>
  (le_u32 i).andThen fun i db_node =>
  (le_u32 i).andThen fun i rel_node =>
  .ok i { spc_node := spc_node, db_node := db_node, rel_node := rel_node }

/-- `parse_block_image` of src/xlog/block.rs: `bimg_len`, `hole_offset`,
`bimg_info`; `hole_length` is read for compressed-with-hole images, 0
for compressed ones without a hole, and `BLCKSZ - bimg_len` (a u16
subtraction, panicking on underflow) otherwise; `HAS_HOLE` demands a
non-degenerate hole. -/
def parse_block_image (i : List Nat) : PResult XLBImage :=
  (le_u16 i).andThen fun i bimg_len =>
  (le_u16 i).andThen fun i hole_offset =>
  (le_u8 i).andThen fun i bimg_info =>
  let apply_image := bimg_info &&& 0x04 != 0
  let is_compressed := bimg_info &&& 0x02 != 0
  let has_hole := bimg_info &&& 0x01 != 0
  (if is_compressed then
    if has_hole then le_u16 i else .ok i 0
  else
    if 8192 < bimg_len then .panic "attempt to subtract with overflow"
    else .ok i (8192 - bimg_len)).andThen fun i hole_length =>
  if has_hole ∧ (hole_offset = 0 ∨ hole_length = 0 ∨ bimg_len = 8192) then
    .err (.invalidBlockImageHole hole_offset hole_length bimg_len)
  else
    .ok i {
      apply_image := apply_image
      hole_offset := hole_offset
      hole_length := hole_length
      bimg_len := bimg_len
      bimg_info := bimg_info
      bkp_image := List.replicate bimg_len 0 }

/-- `parse_data_block_header` of src/xlog/block.rs (lines 363-436): an
id strictly greater than `XLR_MAX_BLOCK_ID = 32` ends the block loop;
ids must strictly increase; fork nibble, `HAS_DATA`/`data_len`
consistency, optional image header, `SAME_REL` locator inheritance,
then the block number. -/
def parse_data_block_header (previous_block : Option XLBData) (i : List Nat) :
    PResult XLBData :=
  (le_u8 i).andThen fun i blk_id =>
  if blk_id > 32 then .err .endBlock
  else if previous_block.any (fun x => blk_id ≤ x.blk_id) then
    .err (.invalidBlockId (previous_block.map (fun x => x.blk_id)) blk_id)
  else
  (le_u8 i).andThen fun i fork_flags =>
  match ForkNumber.tryFrom (fork_flags &&& 0x0F) with
  | none => .err (.invalidForkNumber (fork_flags &&& 0x0F))
  | some fork =>
  let flags := fork_flags &&& 0xF0
  let has_image := fork_flags &&& 0x10 > 0
  let has_data := fork_flags &&& 0x20 > 0
  (le_u16 i).andThen fun i data_len =>
  if has_data ∧ data_len = 0 then .err .missingBlockDataLen
  else if ¬ has_data ∧ data_len > 0 then .err (.unexpectedBlockDataLen data_len)
  else
  (if has_image then parse_block_image i
   else .ok i {
     apply_image := false, hole_offset := 0, hole_length := 0,
     bimg_len := 0, bimg_info := 0, bkp_image := [] }).andThen fun i imageVal =>
  let image : Option XLBImage := if has_image then some imageVal else none
  (if fork_flags &&& 0x80 ≠ 0 then
    match previous_block with
    | none => .err .outOfOrderBlock
    | some blk =>
      match blk.page_id with
      | some page_id => .ok i page_id.locator
      | none => .err .outOfOrderBlock
  else parse_relfilenode i).andThen fun i locator =>
  (le_u32 i).andThen fun i blockno =>
  .ok i {
    blk_id := blk_id
    page_id := some { locator := locator, blockno := blockno, fork := fork }
    flags := flags
    image := image
    has_data := decide has_data
    data_len := data_len
    data := some (List.replicate data_len 0) }

/-- The header loop of `parse_blocks` (src/xlog/block.rs lines
443-452): keep parsing data block headers until `EndBlock`; the `ok`
value is the accumulated blocks and the remaining input is where the
loop stopped.  The fuel starts at `input.length + 1` and can never run
out because every successful header consumes at least one byte. -/
def parse_blocks_loop (fuel : Nat) (blocks : List XLBData) (input : List Nat) :
    PResult (List XLBData) :=
  match fuel with
  | 0 => .panic "loop fuel exhausted"
  | fuel + 1 =>
    match parse_data_block_header blocks.getLast? input with
    | .ok i block => parse_blocks_loop fuel (blocks ++ [block]) i
    | .err .endBlock => .ok input blocks
    | .err e => .err e
    | .failure e => .failure e
    | .incomplete n => .incomplete n
    | .panic m => .panic m

/-- The payload loop of `parse_blocks` (src/xlog/block.rs lines
460-479): for each block, first take `bimg_len` image bytes, then take
`data_len` data bytes. -/
def read_payloads (blocks : List XLBData) (input : List Nat) :
    PResult (List XLBData) :=
  match blocks with
  | [] => .ok input []
  | block :: rest =>
    ((match block.image with
     | some image =>
       (takeBytes image.bimg_len input).andThen fun input bytes =>
       .ok input { block with image := some { image with bkp_image := bytes } }
     | none => .ok input block : PResult XLBData)).andThen fun input block =>
    (takeBytes block.data_len input).andThen fun input bytes =>
    ((match block.data with
     | some _ => .ok input { block with data := some bytes }
     | none => .err .emptyRecord : PResult XLBData)).andThen fun input block =>
    (read_payloads rest input).andThen fun input restFilled =>
    .ok input (block :: restFilled)

/-- `parse_blocks` of src/xlog/block.rs (lines 440-485): header loop,
then (the main-data header parse is commented out in the source) the
remaining input becomes `main_block_start`; payloads are read and any
leftover input is an error. -/
def parse_blocks (i : List Nat) : PResult (List Nat × List XLBData) :=
  (parse_blocks_loop (i.length + 1) [] i).andThen fun input blocks =>
  let main_block_start := input
  (read_payloads blocks input).andThen fun input blocks =>
  if input ≠ [] then .err (.leftoverBytes input)
  else .ok input (main_block_start, blocks)

end Wal.Blk

namespace Wal.Heap

/-- `Infobits` of src/xlog/operation/heap.rs. -/
structure Infobits where
  xmax_is_multi : Bool
  xmax_lock_only : Bool
  xmax_excl_lock : Bool
  xmax_keyshare_lock : Bool
  keys_updated : Bool
  deriving DecidableEq, Repr

/-- `Delete` of src/xlog/operation/heap.rs. -/
structure Delete where
  xmax : Nat
  offnum : Nat
  infobits : Infobits
  all_visible_cleared : Bool
  contains_old_tuple : Bool
  contains_old_key : Bool
  is_super : Bool
  is_partition_move : Bool
  deriving DecidableEq, Repr

/-- `Insert` of src/xlog/operation/heap.rs. -/
structure Insert where
  offnum : Nat
  all_visible_cleared : Bool
  last_in_multi : Bool
  is_speculative : Bool
  contains_new_tuple : Bool
  on_toast_relation : Bool
  all_frozen_set : Bool
  deriving DecidableEq, Repr

/-- `Update` of src/xlog/operation/heap.rs. -/
structure Update where
  old_xmax : Nat
  old_offnum : Nat
  old_infobits : Infobits
  old_all_visible_cleared : Bool
  new_all_visible_cleared : Bool
  contains_old_tuple : Bool
  contains_new_tuple : Bool
  prefix_from_old : Bool
  suffix_from_old : Bool
  new_xmax : Nat
  new_offnum : Nat
  deriving DecidableEq, Repr

/-- `Prune` of src/xlog/operation/heap.rs. -/
structure Prune where
  latest_remove_xid : Nat
  nredirected : Nat
  ndead : Nat
  deriving DecidableEq, Repr

/-- `HeapOperation` of src/xlog/operation/heap.rs. -/
inductive HeapOperation where
  | Delete (d : Delete)
  | Insert (ins : Insert)
  | Update (u : Update)
  | Prune (p : Prune)
  | Placeholder
  deriving DecidableEq, Repr

/-- `parse_infobits` of src/xlog/operation/heap.rs. -/
def parse_infobits (i : List Nat) : PResult Infobits :=
  (le_u8 i).andThen fun i infobits_set =>
  .ok i {
    xmax_is_multi := infobits_set &&& 0x01 != 0
    xmax_lock_only := infobits_set &&& 0x02 != 0
    xmax_excl_lock := infobits_set &&& 0x04 != 0
    xmax_keyshare_lock := infobits_set &&& 0x08 != 0
    keys_updated := infobits_set &&& 0x10 != 0 }

/-- `parse_heap_delete` of src/xlog/operation/heap.rs. -/
def parse_heap_delete (i : List Nat) : PResult HeapOperation :=
  (le_u32 i).andThen fun i xmax =>
  (le_u16 i).andThen fun i offnum =>
  (parse_infobits i).andThen fun i infobits =>
  (le_u8 i).andThen fun i flags =>
  .ok i (.Delete {
    xmax := xmax
    offnum := offnum
    infobits := infobits
    all_visible_cleared := flags &&& 0x01 != 0
    contains_old_tuple := flags &&& 0x02 != 0
    contains_old_key := flags &&& 0x04 != 0
    is_super := flags &&& 0x08 != 0
    is_partition_move := flags &&& 0x10 != 0 })

/-- `parse_heap_update` of src/xlog/operation/heap.rs. -/
def parse_heap_update (i : List Nat) : PResult HeapOperation :=
  (le_u32 i).andThen fun i old_xmax =>
  (le_u16 i).andThen fun i old_offnum =>
  (parse_infobits i).andThen fun i old_infobits =>
  (le_u8 i).andThen fun i flags =>
  (le_u32 i).andThen fun i new_xmax =>
  (le_u16 i).andThen fun i new_offnum =>
  .ok i (.Update {
    old_xmax := old_xmax
    old_offnum := old_offnum
    old_infobits := old_infobits
    old_all_visible_cleared := flags &&& 0x01 != 0
    new_all_visible_cleared := flags &&& 0x02 != 0
    contains_old_tuple := flags &&& 0x04 != 0
    contains_new_tuple := flags &&& 0x08 != 0
    prefix_from_old := flags &&& 0x10 != 0
    suffix_from_old := flags &&& 0x20 != 0
    new_xmax := new_xmax
    new_offnum := new_offnum })

/-- `parse_heap_insert` of src/xlog/operation/heap.rs. -/
def parse_heap_insert (i : List Nat) : PResult HeapOperation :=
  (le_u16 i).andThen fun i offnum =>
  (le_u8 i).andThen fun i flags =>
  .ok i (.Insert {
    offnum := offnum
    all_visible_cleared := flags &&& 0x01 != 0
    last_in_multi := flags &&& 0x02 != 0
    is_speculative := flags &&& 0x04 != 0
    contains_new_tuple := flags &&& 0x08 != 0
    on_toast_relation := flags &&& 0x10 != 0
    all_frozen_set := flags &&& 0x20 != 0 })

/-- `parse_heap_prune` of src/xlog/operation/heap.rs. -/
def parse_heap_prune (i : List Nat) : PResult HeapOperation :=
  (le_u32 i).andThen fun i latest_remove_xid =>
  (le_u16 i).andThen fun i nredirected =>
  (le_u16 i).andThen fun i ndead =>
  .ok i (.Prune {
    latest_remove_xid := latest_remove_xid
    nredirected := nredirected
    ndead := ndead })

/-- `parse_heap_truncate` of src/xlog/operation/heap.rs: a bare
`todo!("truncate")`. -/
def parse_heap_truncate (_i : List Nat) : PResult HeapOperation :=
  .panic "not yet implemented: truncate"

/-- `parse_heap_hot_update` of src/xlog/operation/heap.rs: a bare
`todo!("hot update")`. -/
def parse_heap_hot_update (_i : List Nat) : PResult HeapOperation :=
  .panic "not yet implemented: hot update"

end Wal.Heap

namespace Wal

/-- `Operation` of src/xlog/record.rs: one variant per resource
manager, with structure only for the Heap family. -/
inductive Operation where
  | Xlog | Transaction | Storage | Clog | Database | Tablespace | MultiXact
  | RelMap | Standby | Heap2
  | Heap (op : Heap.HeapOperation)
  | Btree | Hash | Gin | Gist | Sequence | Spgist | Brin | CommitTs
  | ReplicationOrigin | Generic | LogicalMsg
  deriving DecidableEq, Repr

end Wal

namespace Wal.Heap

/-- `parse_heap_operation` of src/xlog/operation/heap.rs (lines
196-215): dispatch on `rmgr_info & XLOG_HEAP_OPMASK` with the trailing source `panic!("Unreachable")` arm modelled as a panic outcome. -/
def parse_heap_operation (rmgr_info : Nat) (i : List Nat) : PResult Operation :=
  ((match rmgr_info &&& 0x70 with
    | 0x00 => parse_heap_insert i
    | 0x10 => parse_heap_delete i
    | 0x20 => parse_heap_update i
    | 0x30 => parse_heap_truncate i
    | 0x40 => parse_heap_hot_update i
    | 0x50 => .ok i HeapOperation.Placeholder
    | 0x60 => .ok i HeapOperation.Placeholder
    | 0x70 => .ok i HeapOperation.Placeholder
    | _ => .panic "Unreachable" : PResult HeapOperation)).andThen fun i heap_operation =>
  .ok i (Operation.Heap heap_operation)

end Wal.Heap

namespace Wal

/-- `XLogRecord` of src/xlog/record.rs. -/
structure XLogRecord where
  header : XLogRecordHeader
  blocks : List Blk.XLBData
  operation : Operation
  deriving DecidableEq, Repr

/-- `parse_xlog_record` of src/xlog/record.rs (lines 244-288): header,
a sub-slice of exactly `xl_tot_len - 24` bytes for the block section,
`parse_blocks` on it, operation dispatch on the resource manager, and
finally `consume_padding(i, i.len() % 8)` on what follows the record. -/
def parse_xlog_record (i0 : List Nat) : PResult XLogRecord :=
  (parse_xlog_record_header i0).andThen fun i header =>
  let record_length := header.xl_tot_len - 24
  let block_bytes := i.take record_length
  (Blk.parse_blocks block_bytes).andThen fun _ mbBlocks =>
  ((match header.xl_rmid with
    | .Xlog => .ok mbBlocks.1 Operation.Xlog
    | .Transaction => .ok mbBlocks.1 Operation.Transaction
    | .Storage => .ok mbBlocks.1 Operation.Storage
    | .Clog => .ok mbBlocks.1 Operation.Clog
    | .Database => .ok mbBlocks.1 Operation.Database
    | .Tablespace => .ok mbBlocks.1 Operation.Tablespace
    | .MultiXact => .ok mbBlocks.1 Operation.MultiXact
    | .RelMap => .ok mbBlocks.1 Operation.RelMap
    | .Standby => .ok mbBlocks.1 Operation.Standby
    | .Heap => Heap.parse_heap_operation header.rmgr_info mbBlocks.1
    | .Heap2 => .ok mbBlocks.1 Operation.Heap2
    | .Btree => .ok mbBlocks.1 Operation.Btree
    | .Hash => .ok mbBlocks.1 Operation.Hash
    | .Gin => .ok mbBlocks.1 Operation.Gin
    | .Gist => .ok mbBlocks.1 Operation.Gist
    | .Sequence => .ok mbBlocks.1 Operation.Sequence
    | .Spgist => .ok mbBlocks.1 Operation.Spgist
    | .Brin => .ok mbBlocks.1 Operation.Brin
    | .CommitTs => .ok mbBlocks.1 Operation.CommitTs
    | .ReplicationOrigin => .ok mbBlocks.1 Operation.ReplicationOrigin
    | .Generic => .ok mbBlocks.1 Operation.Generic
    | .LogicalMsg => .ok mbBlocks.1 Operation.LogicalMsg
    : PResult Operation)).andThen fun _ operation =>
  let i := i.drop record_length
  (consume_padding i (i.length % 8)).andThen fun i _ =>
  .ok i { header := header, blocks := mbBlocks.2, operation := operation }

end Wal

namespace Wal.Flat

/-- `RmgrId` of the flat draft src/xlog_record.rs: total `From<u8>`
with an `Unused` catch-all. -/
inductive RmgrId where
  | Xlog | Transaction | Storage | Clog | Database | Tablespace | MultiXact
  | RelMap | Standby | Heap | Heap2 | Btree | Hash | Gin | Gist | Sequence
  | Spgist | Brin | CommitTs | ReplicationOrigin | Generic | LogicalMsg
  | Unused (byte : Nat)
  deriving DecidableEq, Repr

/-- `impl From<u8> for RmgrId` of src/xlog_record.rs. -/
def RmgrId.fromByte (byte : Nat) : RmgrId :=
  match byte with
  | 0x00 => .Xlog
  | 0x01 => .Transaction
  | 0x02 => .Storage
  | 0x03 => .Clog
  | 0x04 => .Database
  | 0x05 => .Tablespace
  | 0x06 => .MultiXact
  | 0x07 => .RelMap
  | 0x08 => .Standby
  | 0x09 => .Heap2
  | 0x0a => .Heap
  | 0x0b => .Btree
  | 0x0c => .Hash
  | 0x0d => .Gin
  | 0x0e => .Gist
  | 0x0f => .Sequence
  | 0x10 => .Spgist
  | 0x11 => .Brin
  | 0x12 => .CommitTs
  | 0x13 => .ReplicationOrigin
  | 0x14 => .Generic
  | 0x15 => .LogicalMsg
  | unused => .Unused unused

/-- `consume_padding` of src/xlog_record.rs (lines 163-169): no early
return for size 0 and no size > 8 check; the value check is again the
literal source condition `all(|x| *x != 0)`. -/
def consume_padding (i : List Nat) (size : Nat) : PResult Unit :=
  (takeBytes size i).andThen fun i padding =>
  if padding.all (fun x => x != 0) then .err (.incorrectPaddingValue padding)
  else .ok i ()

/-- `XLogRecordHeader` of src/xlog_record.rs (raw `xl_info`). -/
structure XLogRecordHeader where
  xl_tot_len : Nat
  xl_xid : Nat
  xl_prev : Nat
  xl_info : Nat
  xl_rmid : RmgrId
  xl_crc : Nat
  deriving DecidableEq, Repr

/-- `XLBData` of src/xlog_record.rs. -/
structure XLBData where
  blk_id : Nat
  fork_num : Nat
  has_image : Bool
  has_data : Bool
  flags : Nat
  data_len : Nat
  data : List Nat
  deriving DecidableEq, Repr

/-- `parse_xlog_record_header` of src/xlog_record.rs (lines 171-207):
same 24-byte header; the `xl_tot_len - 24` data length is a u32
subtraction that panics on records shorter than the header. -/
def parse_xlog_record_header (i : List Nat) : PResult XLogRecordHeader :=
  if i.length < 24 then .incomplete (24 - i.length)
  else
  (le_u32 i).andThen fun i xl_tot_len =>
  if xl_tot_len = 0 then .err .emptyRecord
  else
  (le_u32 i).andThen fun i xl_xid =>
  (le_u64 i).andThen fun i xl_prev =>
  (le_u8 i).andThen fun i xl_info =>
  (le_u8 i).andThen fun i rmid =>
  (consume_padding i 2).andThen fun i _ =>
  (le_u32 i).andThen fun i xl_crc =>
  if xl_tot_len < 24 then .panic "attempt to subtract with overflow"
  else
  let data_len := xl_tot_len - 24
  if i.length < data_len then .incomplete data_len
  else .ok i {
    xl_tot_len := xl_tot_len
    xl_xid := xl_xid
    xl_prev := xl_prev
    xl_info := xl_info
    xl_rmid := RmgrId.fromByte rmid
    xl_crc := xl_crc }

/-- `parse_main_data_block_header` of src/xlog_block.rs (lines
155-182): every id below `XLR_BLOCK_ID_DATA_LONG = 0xFE` — including
the extension ids 0xFC and 0xFD — fails with `IncorrectId`; 0xFF takes
a u8 length and 0xFE a u16 length. -/
def parse_main_data_block_header (i : List Nat) : PResult XLBData :=
  (le_u8 i).andThen fun i blk_id =>
  if blk_id < 0xFE then .err (.incorrectId blk_id)
  else
  (if blk_id = 0xFF then le_u8 i else le_u16 i).andThen fun i data_len =>
  .ok i {
    blk_id := blk_id
    fork_num := 0
    has_image := false
    has_data := true
    flags := 0
    data_len := data_len
    data := List.replicate data_len 0 }

/-- `parse_data_block_header` of src/xlog_record.rs (lines 250-273):
only id 0xFF ends the loop; fork/flag nibbles and a u16 data length,
with no validity checks. -/
def parse_data_block_header (i : List Nat) : PResult XLBData :=
  (le_u8 i).andThen fun i blk_id =>
  if blk_id = 0xFF then .err .endBlock
  else
  (le_u8 i).andThen fun i fork_flags =>
  let fork_num := fork_flags &&& 0x0F
  let flags := fork_flags &&& 0xF0
  let has_image := fork_flags &&& 0x10 > 0
  let has_data := fork_flags &&& 0x20 > 0
  (le_u16 i).andThen fun i data_len =>
  .ok i {
    blk_id := blk_id
    fork_num := fork_num
    has_image := decide has_image
    has_data := decide has_data
    flags := flags
    data_len := data_len
    data := List.replicate data_len 0 }

/-- The `many0(parse_data_block_header)` part of `parse_block_headers`
of src/xlog_record.rs (line 276): fuel-bounded loop; `many0` stops at
the first error and keeps what was parsed. -/
def parse_data_block_headers_loop (fuel : Nat) (acc : List XLBData)
    (i : List Nat) : PResult (List XLBData) :=
  match fuel with
  | 0 => .panic "loop fuel exhausted"
  | fuel + 1 =>
    match parse_data_block_header i with
    | .ok i block => parse_data_block_headers_loop fuel (acc ++ [block]) i
    | .err _ => .ok i acc
    | .failure e => .failure e
    | .incomplete n => .incomplete n
    | .panic m => .panic m

/-- `parse_block_headers` of src/xlog_record.rs (lines 275-280): data
block headers then the mandatory main-data header. -/
def parse_block_headers (i : List Nat) : PResult (List XLBData) :=
  (parse_data_block_headers_loop (i.length + 1) [] i).andThen fun i data_blocks =>
  (parse_main_data_block_header i).andThen fun i main_data =>
  .ok i (data_blocks ++ [main_data])

/-- The per-block payload loop of the flat `parse_xlog_record`
(src/xlog_record.rs lines 213-218): take `data_len` bytes for every
block, in order. -/
def read_payloads (blocks : List XLBData) (input : List Nat) :
    PResult (List XLBData) :=
  match blocks with
  | [] => .ok input []
  | block :: rest =>
    (takeBytes block.data_len input).andThen fun input bytes =>
    (read_payloads rest input).andThen fun input restFilled =>
    .ok input ({ block with data := bytes } :: restFilled)

/-- `XLogRecord` of src/xlog_record.rs. -/
structure XLogRecord where
  header : XLogRecordHeader
  blocks : List XLBData
  deriving DecidableEq, Repr

/-- `parse_xlog_record` of src/xlog_record.rs (lines 209-223): header,
block headers, per-block payloads, then
`consume_padding(input, input.len() % 8)`. -/
def parse_xlog_record (i0 : List Nat) : PResult XLogRecord :=
  (parse_xlog_record_header i0).andThen fun i header =>
  (parse_block_headers i).andThen fun i blocks =>
  (read_payloads blocks i).andThen fun input blocks =>
  (consume_padding input (input.length % 8)).andThen fun i _ =>
  .ok i { header := header, blocks := blocks }

/-- `parse_xlog_records` of src/xlog_record.rs (line 282):
`many1(parse_xlog_record)` — at least one record, stopping at the
first `nom::Err::Error` and propagating failures and incompleteness,
as the nom `many1` does.  Fuel-bounded loop. -/
def parse_xlog_records_loop (fuel : Nat) (acc : List XLogRecord)
    (i : List Nat) : PResult (List XLogRecord) :=
  match fuel with
  | 0 => .panic "loop fuel exhausted"
  | fuel + 1 =>
    match parse_xlog_record i with
    | .ok i record => parse_xlog_records_loop fuel (acc ++ [record]) i
    | .err e => if acc = [] then .err e else .ok i acc
    | .failure e => .failure e
    | .incomplete n => .incomplete n
    | .panic m => .panic m

/-- `parse_xlog_records` of src/xlog_record.rs. -/
def parse_xlog_records (i : List Nat) : PResult (List XLogRecord) :=
  parse_xlog_records_loop (i.length + 1) [] i

end Wal.Flat

namespace Wal.Reader

/-- The record-yielding state of `XLogReader` of src/xlog_reader.rs:
`page` is the `Option<XLogPageContent>` (only its `records` vector
matters to `pop_record`), and `pending_pages` are the record vectors
of the 8 KiB pages that `read_next_page` will still deliver, each in
the order `parse_xlog_page` produced (the order of appearance in the
page).  A failing `read_next_page` is the empty `pending_pages`. -/
structure ReaderState where
  pending_pages : List (List Flat.XLogRecord)
  page : Option (List Flat.XLogRecord)
  deriving DecidableEq, Repr

/-- `pop_record` of src/xlog_reader.rs (lines 101-103):
`self.page.as_mut().and_then(|p| p.records.pop())` — `Vec::pop`
removes and returns the LAST element of the vector. -/
def pop_record (st : ReaderState) : Option Flat.XLogRecord × ReaderState :=
  match st.page with
  | none => (none, st)
  | some records =>
    match records.getLast? with
    | none => (none, st)
    | some r => (some r, { st with page := some records.dropLast })

/-- `Iterator::next` of src/xlog_reader.rs (lines 109-117): when the
current page has no records left, read the next page (returning `None`
on error/end of file), then `pop_record`. -/
def reader_next (st : ReaderState) : Option Flat.XLogRecord × ReaderState :=
  if (match st.page with | some p => p.length | none => 0) = 0 then
    match st.pending_pages with
    | p :: rest => pop_record { pending_pages := rest, page := some p }
    | [] => (none, st)
  else
    pop_record st

end Wal.Reader

namespace Wal.Apply

/-- `PageMapping` of src/apply.rs: `HashMap<PageId, Page>` modelled as
an association list on which only `insert` and lookup act; an 8 KiB
page is its `data` byte list. -/
def PageMapping : Type := List (Blk.PageId × List Nat)

instance : DecidableEq PageMapping := by
  unfold PageMapping
  infer_instance

/-- `HashMap::insert`: the new binding replaces any binding of the
same key. -/
def pagesInsert (key : Blk.PageId) (value : List Nat) (m : PageMapping) :
    PageMapping :=
  (key, value) :: m.filter (fun kv => kv.1 ≠ key)

/-- `HashMap::get`-style lookup. -/
def pagesLookup (key : Blk.PageId) (m : PageMapping) : Option (List Nat) :=
  (m.find? (fun kv => kv.1 = key)).map (fun kv => kv.2)

/-- Result of the apply engine: `ok` with the updated map, `err` is
`Err(ApplyError)` (the map keeps whatever was already applied), and
`panic` is a Rust panic (`todo!`, `unwrap`, slice indexing) with the
map state at the moment of the panic. -/
inductive ApplyResult where
  | ok (m : PageMapping)
  | err (message : String) (m : PageMapping)
  | panic (msg : String) (m : PageMapping)
  deriving DecidableEq

/-- `PageMapping::apply_image` of src/apply.rs (lines 53-83): blocks
without a page id are skipped; a COMPRESSED image hits
`todo!("COMPRESSION NOT IMPLEMENTED")`; otherwise the page bytes are
the image bytes with `hole_length` zeros spliced at `hole_offset` when
`hole_length > 0` (Rust slicing panics when `hole_offset` exceeds the
image length), a `try_into().unwrap()` asserts exactly 8192 bytes, and
the page is inserted at the page id of the block — the `apply_image` flag
of the image is never consulted. -/
def apply_image (m : PageMapping) (block : Blk.XLBData) (image : Blk.XLBImage) :
    ApplyResult :=
  match block.page_id with
  | none => .ok m
  | some page_id =>
    if image.bimg_info &&& 0x02 ≠ 0 then .panic "COMPRESSION NOT IMPLEMENTED" m
    else if 0 < image.hole_length then
      if image.bkp_image.length < image.hole_offset then
        .panic "range start index out of range" m
      else
        let page_vec := image.bkp_image.take image.hole_offset
          ++ List.replicate image.hole_length 0
          ++ image.bkp_image.drop image.hole_offset
        if page_vec.length = 8192 then .ok (pagesInsert page_id page_vec m)
        else .panic "called unwrap on an Err value" m
    else
      if image.bkp_image.length = 8192 then
        .ok (pagesInsert page_id image.bkp_image m)
      else .panic "called unwrap on an Err value" m

/-- `PageMapping::apply_operation` of src/apply.rs (lines 90-103):
takes `&self`, so the map is never modified; every Heap operation
except `Placeholder` is a `todo!()`, as are Heap2 and Btree; all other
operations are `Ok(())`. -/
def apply_operation (m : PageMapping) (record : XLogRecord) : ApplyResult :=
  match record.operation with
  | .Heap heap_operation =>
    match heap_operation with
    | .Delete _ => .panic "not yet implemented" m
    | .Insert _ => .panic "not yet implemented" m
    | .Update _ => .panic "not yet implemented" m
    | .Prune _ => .panic "not yet implemented" m
    | .Placeholder => .ok m
  | .Heap2 => .panic "not yet implemented" m
  | .Btree => .panic "not yet implemented" m
  | _ => .ok m

/-- The per-block loop of `apply_xlog_record` (src/apply.rs lines
42-49): restore the full-page image when present, then apply the
operation, propagating errors and panics. -/
def apply_blocks_loop (record : XLogRecord) (m : PageMapping) :
    List Blk.XLBData → ApplyResult
  | [] => .ok m
  | block :: rest =>
    match (match block.image with
           | some image => apply_image m block image
           | none => .ok m) with
    | .ok m1 =>
      match apply_operation m1 record with
      | .ok m2 => apply_blocks_loop record m2 rest
      | r => r
    | r => r

/-- `PageMapping::apply_xlog_record` of src/apply.rs (lines 34-51):
records whose resource manager is neither Heap nor Heap2 are ignored;
otherwise every block is processed in order. -/
def apply_xlog_record (m : PageMapping) (record : XLogRecord) : ApplyResult :=
  if record.header.xl_rmid ≠ RmgrId.Heap ∧ record.header.xl_rmid ≠ RmgrId.Heap2 then
    .ok m
  else
    apply_blocks_loop record m record.blocks

end Wal.Apply

namespace Inspect

/-- `ItemId` of inspect/src/page.rs: the three line-pointer bit
fields. -/
structure ItemId where
  lp_off : Nat
  lp_flags : Nat
  lp_len : Nat
  deriving DecidableEq, Repr

/-- The value of a byte buffer read as one little-endian integer: byte
0 contributes the least significant 8 bits.  This is the stream that
the bitter LittleEndianReader serves bits from, least significant bit
first. -/
def leStreamVal : List Nat → Nat
  | [] => 0
  | b :: rest => b % 256 + 256 * leStreamVal rest

/-- the bitter LittleEndianReader read_bits(n) at bit position `pos`:
the `n` bits starting at `pos` of the little-endian stream, least
significant first; `None` when the buffer holds fewer than `pos + n`
bits. -/
def read_bits (bytes : List Nat) (pos n : Nat) : Option Nat :=
  if pos + n ≤ 8 * bytes.length then some ((leStreamVal bytes >>> pos) % 2 ^ n)
  else none

/-- `parse_item_id_data_bits` of inspect/src/page.rs (lines 183-201):
collect the first 4 input bytes, then read widths 15 (`lp_off`),
2 (`lp_flags`), 15 (`lp_len`) from the little-endian bit stream. -/
def parse_item_id_data_bits (input : List Nat) : Option ItemId :=
  let bytes := input.take 4
  match read_bits bytes 0 15 with
  | none => none
  | some lp_off =>
  match read_bits bytes 15 2 with
  | none => none
  | some lp_flags =>
  match read_bits bytes 17 15 with
  | none => none
  | some lp_len => some { lp_off := lp_off, lp_flags := lp_flags, lp_len := lp_len }

/-- `PageHeader` of inspect/src/page.rs. -/
structure PageHeader where
  pd_lsn_xlogid : Nat
  pd_lsn_xrecoff : Nat
  pd_checksum : Nat
  pd_flags : Nat
  pd_lower : Nat
  pd_upper : Nat
  pd_special : Nat
  pd_version : Nat
  pd_pagesize : Nat
  pd_prune_xid : Nat
  deriving DecidableEq, Repr

/-- `Page` of inspect/src/page.rs: the header plus the full 8192-byte
page content (`data` keeps the list representation; the fixed size is
enforced where the code enforces it). -/
structure Page where
  header : PageHeader
  data : List Nat
  deriving DecidableEq, Repr

/-- Outcome of `Page::get_line_pointer`: the two `PageError` variants
of inspect/src/page.rs plus a panic outcome for the slice indexing
`&self.data[start_lp..end_lp]`. -/
inductive LpResult where
  | ok (item : ItemId)
  | invalidOffset (offset maxOffset : Nat)
  | linePointerParseError
  | panicOob
  deriving DecidableEq, Repr

/-- `Page::num_lp` of inspect/src/page.rs (lines 73-79):
`(pd_lower - 24) / 4`, clamped to 0 when `pd_lower <= 24`. -/
def Page.num_lp (p : Page) : Nat :=
  if p.header.pd_lower ≤ 24 then 0
  else (p.header.pd_lower - 24) / 4

/-- Outcome of `parse_line_pointer`: a nom parser, but only the
distinctions its caller inspects are needed — success, a `take(4)`
shortage, or a `map_opt` rejection. -/
inductive PResultLp where
  | okItem (item : ItemId)
  | takeError
  | mapOptError
  deriving DecidableEq, Repr

/-- `parse_line_pointer` of inspect/src/page.rs (lines 175-180):
`take(4)` then `map_opt(parse_item_id_data_bits)`. -/
def parse_line_pointer (i : List Nat) : PResultLp :=
  if i.length < 4 then .takeError
  else
    match parse_item_id_data_bits (i.take 4) with
    | some item => .okItem item
    | none => .mapOptError

/-- `Page::get_line_pointer` of inspect/src/page.rs (lines 81-93):
reject `offset > num_lp()`, then decode the 4 bytes at
`24 + offset * 4`. -/
def Page.get_line_pointer (p : Page) (offset : Nat) : LpResult :=
  let max_offset := p.num_lp
  if offset > max_offset then .invalidOffset offset max_offset
  else
    let start_lp := 24 + offset * 4
    let end_lp := start_lp + 4
    if end_lp ≤ p.data.length then
      match parse_line_pointer ((p.data.drop start_lp).take 4) with
      | .okItem item => .ok item
      | _ => .linePointerParseError
    else .panicOob

/-- Rust `str::split` at the slash character on the character list of the string: the
fragments between the slashes, including empty ones; a string with no
slash yields the single fragment that is the whole string, so the
result is never empty. -/
def splitSlash : List Char → List (List Char)
  | [] => [[]]
  | c :: rest =>
    if c = '/' then [] :: splitSlash rest
    else
      match splitSlash rest with
      | [] => [[c]]
      | f :: fs => (c :: f) :: fs

/-- The numeric value of a hexadecimal digit character, if it is one. -/
def hexDigit? (c : Char) : Option Nat :=
  if '0' ≤ c ∧ c ≤ '9' then some (c.toNat - '0'.toNat)
  else if 'a' ≤ c ∧ c ≤ 'f' then some (c.toNat - 'a'.toNat + 10)
  else if 'A' ≤ c ∧ c ≤ 'F' then some (c.toNat - 'A'.toNat + 10)
  else none

/-- The value of a list of hex digits, most significant first; `none`
if the list is empty or holds a non-digit. -/
def hexValue? : List Char → Option Nat
  | [] => none
  | ds => ds.foldlM (fun acc c => (hexDigit? c).map (fun d => acc * 16 + d)) 0

/-- Rust `u32::from_str_radix(s, 16)`: an optional leading `+`, then
at least one hex digit; the value must fit in a u32; a `-` sign is
rejected for an unsigned target type. -/
def fromStrRadix16U32 (s : List Char) : Option Nat :=
  match s with
  | '+' :: ds =>
    match hexValue? ds with
    | some v => if v < 2 ^ 32 then some v else none
    | none => none
  | '-' :: _ => none
  | ds =>
    match hexValue? ds with
    | some v => if v < 2 ^ 32 then some v else none
    | none => none

/-- Outcome of `TryFrom<&str> for PageXLogRecPtr` of
inspect/src/pg_lsn.rs: the two `InvalidLSN` variants, success, or the
panic of the `iter.next().unwrap()` for the missing second fragment. -/
inductive LsnResult where
  | ok (xlogid xrecoff : Nat)
  | formatErr (lsn : List Char)
  | hexErr (lsn : List Char)
  | panicUnwrapNone
  deriving DecidableEq, Repr

/-- `TryFrom<&str> for PageXLogRecPtr` of inspect/src/pg_lsn.rs (lines
25-45): split on a slash, parse the first fragment as hex (the
`let Some .. else` arm returns `InvalidLSN::Format`), then `unwrap`
the second fragment and parse it as hex. -/
def pageXLogRecPtr_try_from (lsn : List Char) : LsnResult :=
  match splitSlash lsn with
  | [] => .formatErr lsn
  | xlogid_str :: iterRest =>
    match fromStrRadix16U32 xlogid_str with
    | none => .hexErr lsn
    | some xlogid =>
      match iterRest with
      | [] => .panicUnwrapNone
      | xrecoff_str :: _ =>
        match fromStrRadix16U32 xrecoff_str with
        | none => .hexErr lsn
        | some xrecoff => .ok xlogid xrecoff

end Inspect

namespace PageInspect

/-- `ItemIdData` of src/inspect/page_inspect.rs. -/
structure ItemIdData where
  lp_off : Nat
  lp_flags : Nat
  lp_len : Nat
  deriving DecidableEq, Repr

/-- Bit `j` of the stream that `nom::bits::complete::take` serves:
bytes are read left to right and each byte is served from its MOST
significant bit down — bit `j` is bit `7 - (j mod 8)` of byte
`j / 8`. -/
def msbStreamBit (bytes : List Nat) (j : Nat) : Nat :=
  (bytes.getD (j / 8) 0 >>> (7 - j % 8)) &&& 1

/-- The value `nom::bits::complete::take(n)` accumulates from bit
position `pos`: the first bit read lands in the most significant
place (`acc = (acc << 1) + bit`). -/
def msbBitsVal (bytes : List Nat) (pos : Nat) : Nat → Nat
  | 0 => 0
  | n + 1 => msbBitsVal bytes pos n * 2 + msbStreamBit bytes (pos + n)

/-- `nom::bits::complete::take(n)` at bit position `pos` of the
original buffer: fails when fewer than `pos + n` bits remain, reads 0
bits as 0.  (nom keeps the cursor as a sliced byte buffer plus an
offset into its first byte; position `pos` over the original buffer is
the same cursor.) -/
def bits_take (bytes : List Nat) (pos n : Nat) : Option Nat :=
  if n = 0 then some 0
  else if 8 * bytes.length < pos + n then none
  else some (msbBitsVal bytes pos n)

/-- `parse_item_id_data` of src/src/inspect/page_inspect.rs (lines
96-102): three `nom::bits::complete::take` reads of widths 15, 2, 15
starting from bit offset 0 — so MSB-first within every byte, unlike
the bitter-based reader of inspect/src/page.rs. -/
def parse_item_id_data (i : List Nat) : Option ItemIdData :=
  match bits_take i 0 15 with
  | none => none
  | some lp_off =>
  match bits_take i 15 2 with
  | none => none
  | some lp_flags =>
  match bits_take i 17 15 with
  | none => none
  | some lp_len => some { lp_off := lp_off, lp_flags := lp_flags, lp_len := lp_len }

end PageInspect

namespace Fixtures

/-- A minimal well-formed record for the module decoder: `xl_tot_len`
45 = 24-byte header + one data block reference (20 bytes of headers +
1 data byte); Standby resource manager. -/
def rec45Bytes : List Nat :=
  [45, 0, 0, 0]                             -- xl_tot_len = 45
  ++ [7, 0, 0, 0]                           -- xl_xid = 7
  ++ [0, 0, 0, 0, 0, 0, 0, 0]               -- xl_prev = 0
  ++ [0x00]                                 -- xl_info
  ++ [0x08]                                 -- xl_rmid = Standby
  ++ [0, 0]                                 -- header padding
  ++ [0, 0, 0, 0]                           -- xl_crc
  ++ [0x00, 0x20, 1, 0]                     -- block id 0, HAS_DATA, data_len 1
  ++ [1, 0, 0, 0, 2, 0, 0, 0, 3, 0, 0, 0]   -- relation file locator 1/2/3
  ++ [9, 0, 0, 0]                           -- block number 9
  ++ [0xAB]                                 -- the one data byte

/-- The 45-byte record followed by a single zero byte: an input slice
whose length (46) is not a multiple of 8. -/
def input46 : List Nat := rec45Bytes ++ [0]

/-- The 45-byte record followed by three zero bytes: a 48-byte,
8-aligned input slice. -/
def input48 : List Nat := rec45Bytes ++ [0, 0, 0]

/-- The record value the module decoder produces for `rec45Bytes`. -/
def rec45 : Wal.XLogRecord :=
  { header := { xl_tot_len := 45, xl_xid := 7, xl_prev := 0,
                special_rel_update := false, check_consistency := false,
                rmgr_info := 0, xl_rmid := .Standby, xl_crc := 0 },
    blocks := [ { blk_id := 0,
                  page_id := some { locator := { spc_node := 1, db_node := 2, rel_node := 3 },
                                    blockno := 9, fork := .Main },
                  flags := 0x20, image := none, has_data := true,
                  data_len := 1, data := some [0xAB] } ],
    operation := .Standby }

/-- The Standby record of the repository test fixture `test_parse_standby`
fixture, parameterised by the transaction id: 24-byte header, a short
main-data header (id 0xFF, 24 data bytes of zeros), and 6 bytes of
record padding — 56 bytes in all. -/
def standbyRecBytes (xid : Nat) : List Nat :=
  [50, 0, 0, 0]                             -- xl_tot_len = 50
  ++ [xid, 0, 0, 0]                         -- xl_xid
  ++ List.replicate 8 0                     -- xl_prev = 0
  ++ [0x10, 0x08, 0, 0]                     -- xl_info, xl_rmid = Standby, padding
  ++ [0, 0, 0, 0]                           -- xl_crc
  ++ [0xFF, 24]                             -- short main-data header, length 24
  ++ List.replicate 24 0                    -- main data
  ++ List.replicate 6 0                     -- record padding to the 8-byte boundary

/-- A page payload holding two records at increasing offsets (xids 1
then 2) followed by a zeroed tail that ends the record loop. -/
def twoRecordPage : List Nat :=
  standbyRecBytes 1 ++ standbyRecBytes 2 ++ List.replicate 24 0

/-- The flat-decoder value of `standbyRecBytes xid`. -/
def flatStandbyRec (xid : Nat) : Wal.Flat.XLogRecord :=
  { header := { xl_tot_len := 50, xl_xid := xid, xl_prev := 0,
                xl_info := 0x10, xl_rmid := .Standby, xl_crc := 0 },
    blocks := [ { blk_id := 0xFF, fork_num := 0, has_image := false,
                  has_data := true, flags := 0, data_len := 24,
                  data := List.replicate 24 0 } ] }

/-- The reader state right after opening a segment whose first page
holds the two records of `twoRecordPage`. -/
def twoRecordReader : Wal.Reader.ReaderState :=
  { pending_pages := [[flatStandbyRec 1, flatStandbyRec 2]], page := none }

/-- A page identity used by the apply fixtures. -/
def pid0 : Wal.Blk.PageId :=
  { locator := { spc_node := 1, db_node := 2, rel_node := 3 },
    blockno := 4, fork := .Main }

/-- A full-page image whose APPLY bit is clear (`bimg_info = 0x01`,
only HAS_HOLE): 4 image bytes with an 8188-byte hole at offset 2. -/
def imgNoApply : Wal.Blk.XLBImage :=
  { apply_image := false, hole_offset := 2, hole_length := 8188,
    bimg_len := 4, bimg_info := 0x01, bkp_image := [9, 9, 9, 9] }

/-- A block reference carrying `imgNoApply` at `pid0`. -/
def blkNoApply : Wal.Blk.XLBData :=
  { blk_id := 0, page_id := some pid0, flags := 0x10,
    image := some imgNoApply, has_data := false, data_len := 0, data := some [] }

/-- A Heap record (placeholder operation, so the operation part of the
apply engine is a no-op) whose single block carries `imgNoApply`. -/
def recNoApply : Wal.XLogRecord :=
  { header := { xl_tot_len := 0, xl_xid := 0, xl_prev := 0,
                special_rel_update := false, check_consistency := false,
                rmgr_info := 0x50, xl_rmid := .Heap, xl_crc := 0 },
    blocks := [blkNoApply], operation := .Heap .Placeholder }

/-- A full-page image with the COMPRESSED bit set
(`bimg_info = 0x06` = COMPRESSED | APPLY). -/
def imgCompressed : Wal.Blk.XLBImage :=
  { apply_image := true, hole_offset := 0, hole_length := 0,
    bimg_len := 4, bimg_info := 0x06, bkp_image := [1, 2, 3, 4] }

/-- A block reference carrying `imgCompressed` at `pid0`. -/
def blkCompressed : Wal.Blk.XLBData :=
  { blk_id := 0, page_id := some pid0, flags := 0x10,
    image := some imgCompressed, has_data := false, data_len := 0, data := some [] }

/-- A Heap record whose single block carries the compressed image. -/
def recCompressed : Wal.XLogRecord :=
  { header := { xl_tot_len := 0, xl_xid := 0, xl_prev := 0,
                special_rel_update := false, check_consistency := false,
                rmgr_info := 0x50, xl_rmid := .Heap, xl_crc := 0 },
    blocks := [blkCompressed], operation := .Heap .Placeholder }

/-- A full-page image with a hole, for the apply-image witness:
4 image bytes, 8188 zeros spliced at offset 2. -/
def imgWithHole : Wal.Blk.XLBImage :=
  { apply_image := true, hole_offset := 2, hole_length := 8188,
    bimg_len := 4, bimg_info := 0x05, bkp_image := [9, 9, 9, 9] }

/-- A block reference carrying `imgWithHole` at `pid0`. -/
def blkWithHole : Wal.Blk.XLBData :=
  { blk_id := 0, page_id := some pid0, flags := 0x10,
    image := some imgWithHole, has_data := false, data_len := 0, data := some [] }

/-- A well-formed data block reference whose leading id byte is the
boundary value 32. -/
def block32Bytes : List Nat :=
  [32, 0x20, 1, 0] ++ [1, 0, 0, 0, 2, 0, 0, 0, 3, 0, 0, 0] ++ [5, 0, 0, 0]

/-- The block the module decoder produces for `block32Bytes`. -/
def block32 : Wal.Blk.XLBData :=
  { blk_id := 32,
    page_id := some { locator := { spc_node := 1, db_node := 2, rel_node := 3 },
                      blockno := 5, fork := .Main },
    flags := 0x20, image := none, has_data := true,
    data_len := 1, data := some [0] }

/-- A heap page for the line-pointer boundary witness: `pd_lower` 28
(one line pointer) over a 32-byte data prefix of zeros. -/
def pageW : Inspect.Page :=
  { header := { pd_lsn_xlogid := 0, pd_lsn_xrecoff := 0, pd_checksum := 0,
                pd_flags := 0, pd_lower := 28, pd_upper := 0, pd_special := 0,
                pd_version := 0, pd_pagesize := 0, pd_prune_xid := 0 },
    data := List.replicate 32 0 }

end Fixtures

theorem andThen_eq_ok {α β : Type} {r : Wal.PResult α} {f : List Nat → α → Wal.PResult β}
    {rest : List Nat} {v : β} (h : r.andThen f = .ok rest v) :
    ∃ rest0 v0, r = .ok rest0 v0 ∧ f rest0 v0 = .ok rest v := by
  cases r with
  | ok rest0 v0 => exact ⟨rest0, v0, rfl, h⟩
  | err e => exact absurd h (by simp [Wal.PResult.andThen])
  | failure e => exact absurd h (by simp [Wal.PResult.andThen])
  | incomplete n => exact absurd h (by simp [Wal.PResult.andThen])
  | panic m => exact absurd h (by simp [Wal.PResult.andThen])

theorem andThen_ne_panic {α β : Type} {r : Wal.PResult α} {f : List Nat → α → Wal.PResult β}
    (hr : ∀ msg, r ≠ .panic msg) (hf : ∀ rest v msg, f rest v ≠ .panic msg) :
    ∀ msg, r.andThen f ≠ .panic msg := by
  intro msg h
  cases r with
  | ok rest v => exact hf rest v msg h
  | err e => exact Wal.PResult.noConfusion h
  | failure e => exact Wal.PResult.noConfusion h
  | incomplete n => exact Wal.PResult.noConfusion h
  | panic m => exact hr m rfl

theorem le_u8_ne_panic (i : List Nat) : ∀ msg, Wal.le_u8 i ≠ .panic msg := by
  intro msg
  unfold Wal.le_u8
  split <;> simp

theorem le_u16_ne_panic (i : List Nat) : ∀ msg, Wal.le_u16 i ≠ .panic msg := by
  intro msg
  unfold Wal.le_u16
  split <;> simp

theorem le_u32_ne_panic (i : List Nat) : ∀ msg, Wal.le_u32 i ≠ .panic msg := by
  intro msg
  unfold Wal.le_u32
  split <;> simp

theorem parse_infobits_ne_panic (i : List Nat) :
    ∀ msg, Wal.Heap.parse_infobits i ≠ .panic msg := by
  unfold Wal.Heap.parse_infobits
  exact andThen_ne_panic (le_u8_ne_panic i) (fun rest v msg => by simp)

theorem parse_heap_insert_ne_panic (i : List Nat) :
    ∀ msg, Wal.Heap.parse_heap_insert i ≠ .panic msg := by
  unfold Wal.Heap.parse_heap_insert
  exact andThen_ne_panic (le_u16_ne_panic i) (fun r1 v1 =>
    andThen_ne_panic (le_u8_ne_panic r1) (fun r2 v2 msg => by simp))

theorem parse_heap_delete_ne_panic (i : List Nat) :
    ∀ msg, Wal.Heap.parse_heap_delete i ≠ .panic msg := by
  unfold Wal.Heap.parse_heap_delete
  exact andThen_ne_panic (le_u32_ne_panic i) (fun r1 v1 =>
    andThen_ne_panic (le_u16_ne_panic r1) (fun r2 v2 =>
      andThen_ne_panic (parse_infobits_ne_panic r2) (fun r3 v3 =>
        andThen_ne_panic (le_u8_ne_panic r3) (fun r4 v4 msg => by simp))))

theorem parse_heap_update_ne_panic (i : List Nat) :
    ∀ msg, Wal.Heap.parse_heap_update i ≠ .panic msg := by
  unfold Wal.Heap.parse_heap_update
  exact andThen_ne_panic (le_u32_ne_panic i) (fun r1 v1 =>
    andThen_ne_panic (le_u16_ne_panic r1) (fun r2 v2 =>
      andThen_ne_panic (parse_infobits_ne_panic r2) (fun r3 v3 =>
        andThen_ne_panic (le_u8_ne_panic r3) (fun r4 v4 =>
          andThen_ne_panic (le_u32_ne_panic r4) (fun r5 v5 =>
            andThen_ne_panic (le_u16_ne_panic r5) (fun r6 v6 msg => by simp))))))

/-- C1: the padding contract.  The K > 8 length check and the
rejection of all-non-zero padding behave as claimed, and all-zero
padding is accepted; but the value check is `all(|x| *x != 0)` where
the claim (and the padding contract of the spec) demands failure as soon as
ANY byte is non-zero: the two-byte padding `[0x01, 0x00]` contains a
non-zero byte yet `consume_padding` accepts it. -/
theorem claim_C1_consume_padding :
    Wal.consume_padding [1, 0] 2 = .ok [] ()
    ∧ Wal.consume_padding [0, 0, 0] 3 = .ok [] ()
    ∧ Wal.consume_padding (List.replicate 9 0) 9 = .err (.incorrectPaddingLength 9)
    ∧ Wal.consume_padding [1, 1] 2 = .err (.incorrectPaddingValue [1, 1]) := by
  decide

set_option maxRecDepth 4000 in
/-- C9: for every `rmgr_info` byte the heap operation selector
`rmgr_info & 0x70` is one of the eight multiples of 0x10 up to 0x70,
and the trailing `Unreachable` panic arm of `parse_heap_operation`
is never reached, whatever the input bytes are. -/
theorem claim_C9_heap_op_selector :
    (∀ ri : Fin 256,
      ri.val &&& 0x70 ∈ ([0x00, 0x10, 0x20, 0x30, 0x40, 0x50, 0x60, 0x70] : List Nat))
    ∧ (∀ (ri : Fin 256) (i : List Nat),
        Wal.Heap.parse_heap_operation ri.val i ≠ .panic "Unreachable") := by
  constructor
  · decide
  · intro ri i
    have h : ri.val &&& 0x70 = 0x00 ∨ ri.val &&& 0x70 = 0x10 ∨ ri.val &&& 0x70 = 0x20
        ∨ ri.val &&& 0x70 = 0x30 ∨ ri.val &&& 0x70 = 0x40 ∨ ri.val &&& 0x70 = 0x50
        ∨ ri.val &&& 0x70 = 0x60 ∨ ri.val &&& 0x70 = 0x70 := by
      revert ri
      decide
    unfold Wal.Heap.parse_heap_operation
    rcases h with h | h | h | h | h | h | h | h <;> rw [h] <;>
      first
        | exact andThen_ne_panic (parse_heap_insert_ne_panic i)
            (fun rest v msg => by simp) "Unreachable"
        | exact andThen_ne_panic (parse_heap_delete_ne_panic i)
            (fun rest v msg => by simp) "Unreachable"
        | exact andThen_ne_panic (parse_heap_update_ne_panic i)
            (fun rest v msg => by simp) "Unreachable"
        | simp [Wal.Heap.parse_heap_truncate, Wal.Heap.parse_heap_hot_update,
            Wal.PResult.andThen]

theorem splitSlash_ne_nil (l : List Char) : Inspect.splitSlash l ≠ [] := by
  induction l with
  | nil => simp [Inspect.splitSlash]
  | cons c rest ih =>
    unfold Inspect.splitSlash
    split
    · simp
    · split <;> simp

/-- C10: the LSN parser can never return the `InvalidLSN::Format`
variant, because `str::split('/')` always yields a first fragment; and
on the slash-free all-hex input "0" it panics on the `unwrap` of the
missing second fragment instead of returning an error. -/
theorem claim_C10_lsn_try_from :
    (∀ (lsn : List Char) (s : List Char),
      Inspect.pageXLogRecPtr_try_from lsn ≠ .formatErr s)
    ∧ Inspect.pageXLogRecPtr_try_from ['0'] = .panicUnwrapNone := by
  constructor
  · intro lsn s h
    unfold Inspect.pageXLogRecPtr_try_from at h
    split at h
    · rename_i heq
      exact splitSlash_ne_nil lsn heq
    · split at h
      · exact Inspect.LsnResult.noConfusion h
      · split at h
        · exact Inspect.LsnResult.noConfusion h
        · split at h
          · exact Inspect.LsnResult.noConfusion h
          · exact Inspect.LsnResult.noConfusion h
  · decide

theorem leStream_bit (bytes : List Nat) (k : Nat) (hk : k < 8 * bytes.length) :
    (Inspect.leStreamVal bytes >>> k) % 2 = (bytes.getD (k / 8) 0 >>> (k % 8)) % 2 := by
  induction bytes generalizing k with
  | nil => simp at hk
  | cons b rest ih =>
    by_cases h8 : k < 8
    · have hdiv : k / 8 = 0 := by omega
      have hmod : k % 8 = k := by omega
      rw [hdiv, hmod]
      simp only [List.getD_cons_zero, Inspect.leStreamVal, Nat.shiftRight_eq_div_pow]
      interval_cases k <;> · norm_num; omega
    · have e1 : Inspect.leStreamVal (b :: rest) >>> k
          = Inspect.leStreamVal rest >>> (k - 8) := by
        simp only [Inspect.leStreamVal, Nat.shiftRight_eq_div_pow]
        have hk2 : (2 : ℕ) ^ k = 256 * 2 ^ (k - 8) := by
          have : k = 8 + (k - 8) := by omega
          rw [this, pow_add]
          norm_num
        rw [hk2, ← Nat.div_div_eq_div_mul]
        congr 1
        omega
      have e2 : (b :: rest).getD (k / 8) 0 = rest.getD ((k - 8) / 8) 0 := by
        have h1 : k / 8 = (k - 8) / 8 + 1 := by omega
        rw [h1, List.getD_cons_succ]
      have e3 : k % 8 = (k - 8) % 8 := by omega
      rw [e1, e2, e3]
      exact ih (k - 8) (by simp at hk ⊢; omega)

/-- C4: the repository holds TWO line-pointer bitfield readers.  The
bitter-based `parse_item_id_data_bits` of inspect/src/page.rs behaves
as the claim states: it serves bits from the least-significant bit of
byte 0 onwards (bit k of the stream is bit `k mod 8` of byte `k / 8`),
the three widths (15, 2, 15) always succeed on a 4-byte word and
leave no bit behind, and on the concrete bytes `80 9F 38 00` they
decode `lp_off = 8064`, `lp_flags = 1`, `lp_len = 28` — the values the
repository test asserts.  But the nom-based `parse_item_id_data` of
src/src/inspect/page_inspect.rs draws bits from the MOST significant
bit of each byte, so on the very same example it produces
`lp_off = 16463`, `lp_flags = 2`, `lp_len = 14336` — not the claimed
values. -/
theorem claim_C4_line_pointer_bits :
    (∀ (bytes : List Nat) (k : Nat), k < 8 * bytes.length →
      Inspect.read_bits bytes k 1 = some ((bytes.getD (k / 8) 0 >>> (k % 8)) % 2))
    ∧ (∀ b0 b1 b2 b3 : Nat,
        (∃ item, Inspect.parse_item_id_data_bits [b0, b1, b2, b3] = some item)
        ∧ Inspect.read_bits [b0, b1, b2, b3] 32 1 = none)
    ∧ Inspect.parse_item_id_data_bits [0x80, 0x9F, 0x38, 0x00]
        = some { lp_off := 8064, lp_flags := 1, lp_len := 28 }
    ∧ PageInspect.parse_item_id_data [0x80, 0x9F, 0x38, 0x00]
        = some { lp_off := 16463, lp_flags := 2, lp_len := 14336 }
    ∧ PageInspect.parse_item_id_data [0x80, 0x9F, 0x38, 0x00]
        ≠ some { lp_off := 8064, lp_flags := 1, lp_len := 28 } := by
  refine ⟨?_, ?_, ?_, ?_, ?_⟩
  · intro bytes k hk
    unfold Inspect.read_bits
    rw [if_pos (by omega)]
    rw [pow_one, leStream_bit bytes k hk]
  · intro b0 b1 b2 b3
    constructor
    · simp only [Inspect.parse_item_id_data_bits, Inspect.read_bits]
      norm_num
    · simp [Inspect.read_bits]
  · decide
  · decide
  · decide

/-- C4 witness: the bit-order fact applied at byte list `[2]`, bit 1,
together with the concrete decodes of both readers on the claim
example. -/
theorem claim_C4_witness :
    Inspect.read_bits [2] 1 1 = some 1
    ∧ Inspect.parse_item_id_data_bits [0x80, 0x9F, 0x38, 0x00]
        = some { lp_off := 8064, lp_flags := 1, lp_len := 28 }
    ∧ PageInspect.parse_item_id_data [0x80, 0x9F, 0x38, 0x00]
        = some { lp_off := 16463, lp_flags := 2, lp_len := 14336 } := by
  refine ⟨?_, ?_, ?_⟩
  · have h := claim_C4_line_pointer_bits.1 [2] 1 (by decide)
    simpa using h
  · exact claim_C4_line_pointer_bits.2.2.1
  · exact claim_C4_line_pointer_bits.2.2.2.1

theorem parse_item_id_of_length_four (l : List Nat) (hl : l.length = 4) :
    ∃ item, Inspect.parse_item_id_data_bits l = some item := by
  have ht : l.take 4 = l := List.take_of_length_le (by omega)
  simp only [Inspect.parse_item_id_data_bits, Inspect.read_bits, ht, hl]
  norm_num

/-- C8: `get_line_pointer` returns `InvalidOffset` exactly when the
requested offset exceeds `num_lp()`; in particular the boundary call
at `offset = num_lp()` is accepted and decodes the 4 bytes at
`24 + offset * 4` — the position immediately after the last line
pointer of the array — whenever those bytes lie inside the page
data. -/
theorem claim_C8_line_pointer_bounds (p : Inspect.Page) (offset : Nat) :
    ((∃ mo, p.get_line_pointer offset = .invalidOffset offset mo) ↔ p.num_lp < offset)
    ∧ (offset = p.num_lp → 24 + offset * 4 + 4 ≤ p.data.length →
        ∃ item, p.get_line_pointer offset = .ok item
          ∧ Inspect.parse_item_id_data_bits ((p.data.drop (24 + offset * 4)).take 4)
              = some item) := by
  constructor
  · constructor
    · rintro ⟨mo, hmo⟩
      by_contra hno
      simp only [Inspect.Page.get_line_pointer] at hmo
      rw [if_neg hno] at hmo
      split at hmo
      · split at hmo <;> exact Inspect.LpResult.noConfusion hmo
      · exact Inspect.LpResult.noConfusion hmo
    · intro hgt
      refine ⟨p.num_lp, ?_⟩
      simp only [Inspect.Page.get_line_pointer]
      rw [if_pos hgt]
  · intro heq hbound
    have hlen : ((p.data.drop (24 + offset * 4)).take 4).length = 4 := by
      simp only [List.length_take, List.length_drop]
      omega
    obtain ⟨item, hitem⟩ := parse_item_id_of_length_four _ hlen
    refine ⟨item, ?_, hitem⟩
    simp only [Inspect.Page.get_line_pointer]
    rw [if_neg (by omega), if_pos hbound]
    have ht4 : ((p.data.drop (24 + offset * 4)).take 4).take 4
        = (p.data.drop (24 + offset * 4)).take 4 :=
      List.take_of_length_le (by omega)
    simp only [Inspect.parse_line_pointer, hlen, ht4]
    norm_num
    rw [hitem]

/-- C8 witness: on a page with `pd_lower = 28` (one line pointer) the
boundary offset 1 is accepted and decodes the bytes after the array,
while offset 2 is rejected with `InvalidOffset`. -/
theorem claim_C8_witness :
    (∃ item, Fixtures.pageW.get_line_pointer 1 = .ok item
      ∧ Inspect.parse_item_id_data_bits ((Fixtures.pageW.data.drop 28).take 4)
          = some item)
    ∧ (∃ mo, Fixtures.pageW.get_line_pointer 2 = .invalidOffset 2 mo) := by
  constructor
  · have h := (claim_C8_line_pointer_bounds Fixtures.pageW 1).2 (by decide) (by decide)
    simpa using h
  · exact (claim_C8_line_pointer_bounds Fixtures.pageW 2).1.mpr (by decide)

/-- C2 counterexample: the claim says id 0xFC starts a 4-byte
top-level-XID extension after which decoding continues; in the code a
record whose block-reference section is `FC 00 00 00 00` fails — the
module decoder ends its block loop at any id above 32 and then rejects
the unconsumed bytes as `LeftoverBytes`, and the flat main-data
dispatcher rejects id 0xFC with `IncorrectId`. -/
theorem claim_C2_counterexample :
    Wal.Blk.parse_blocks [0xFC, 0, 0, 0, 0]
      = .err (.leftoverBytes [0xFC, 0, 0, 0, 0])
    ∧ Wal.Flat.parse_main_data_block_header [0xFC, 0, 0, 0, 0]
      = .err (.incorrectId 0xFC) := by
  decide

/-- C2 amended: the block-id dispatch as the code implements it — any
id ≤ 32 (the boundary 32 included) starts a data block reference; any
id ≥ 33, including the extension ids 0xFC and 0xFD, merely ends the
block-header loop of the module decoder with `EndBlock`; and the flat
main-data dispatcher accepts only ids 0xFE and 0xFF, failing every id
below 0xFE (0xFC and 0xFD included) with `IncorrectId`.  No XID or
replication-origin payload is ever consumed. -/
theorem claim_C2_amended :
    (∀ (prev : Option Wal.Blk.XLBData) (id : Nat) (rest : List Nat),
      32 < id % 256 →
      Wal.Blk.parse_data_block_header prev (id :: rest) = .err .endBlock)
    ∧ (∀ (id : Nat) (rest : List Nat),
        id % 256 < 0xFE →
        Wal.Flat.parse_main_data_block_header (id :: rest)
          = .err (.incorrectId (id % 256)))
    ∧ Wal.Blk.parse_data_block_header none Fixtures.block32Bytes
        = .ok [] Fixtures.block32 := by
  refine ⟨?_, ?_, ?_⟩
  · intro prev id rest h
    simp [Wal.Blk.parse_data_block_header, Wal.le_u8, Wal.PResult.andThen, h]
  · intro id rest h
    simp [Wal.Flat.parse_main_data_block_header, Wal.le_u8, Wal.PResult.andThen, h]
  · decide

/-- C2 witness: the two universal parts applied to the extension ids
0xFC and 0xFD. -/
theorem claim_C2_witness :
    Wal.Blk.parse_data_block_header none [0xFC, 0, 0, 0, 0] = .err .endBlock
    ∧ Wal.Flat.parse_main_data_block_header [0xFD, 0, 0]
      = .err (.incorrectId 0xFD) := by
  constructor
  · exact claim_C2_amended.1 none 0xFC [0, 0, 0, 0] (by decide)
  · have h := claim_C2_amended.2.1 0xFD [0, 0] (by decide)
    simpa using h

/-- C6 counterexample: on a record carrying a COMPRESSED full-page
image the apply engine does not return
`InvalidRecord("compression not implemented")` — it panics through
`todo!("COMPRESSION NOT IMPLEMENTED")`, leaving the page map as it
was. -/
theorem claim_C6_counterexample :
    Wal.Apply.apply_xlog_record [] Fixtures.recCompressed
      = .panic "COMPRESSION NOT IMPLEMENTED" []
    ∧ (Wal.Apply.ApplyResult.panic "COMPRESSION NOT IMPLEMENTED"
        ([] : Wal.Apply.PageMapping)
      ≠ Wal.Apply.ApplyResult.err "compression not implemented" []) := by
  constructor
  · decide
  · decide

/-- C6 amended: whenever `apply_image` meets a block reference (with a
page identity) whose image has the COMPRESSED bit set, it panics with
`COMPRESSION NOT IMPLEMENTED` — it neither returns an error to its
caller nor touches the page map before the panic. -/
theorem claim_C6_amended (m : Wal.Apply.PageMapping) (block : Wal.Blk.XLBData)
    (image : Wal.Blk.XLBImage) (pid : Wal.Blk.PageId)
    (hpid : block.page_id = some pid)
    (hcomp : image.bimg_info &&& 0x02 ≠ 0) :
    Wal.Apply.apply_image m block image = .panic "COMPRESSION NOT IMPLEMENTED" m := by
  simp only [Wal.Apply.apply_image, hpid]
  rw [if_pos hcomp]

/-- C6 witness: the amended fact at the concrete compressed image. -/
theorem claim_C6_witness :
    Wal.Apply.apply_image [] Fixtures.blkCompressed Fixtures.imgCompressed
      = .panic "COMPRESSION NOT IMPLEMENTED" [] := by
  exact claim_C6_amended [] Fixtures.blkCompressed Fixtures.imgCompressed
    Fixtures.pid0 (by decide) (by decide)

/-- C3 counterexample: the claimed equivalence "page inserted if and only if the APPLY
bit is set" fails — a Heap record whose single block carries a
full-page image with the APPLY bit CLEAR still gets its page inserted
into the map, because `apply_image` never consults the bit. -/
theorem pagesLookup_head (pid : Wal.Blk.PageId) (buf : List Nat)
    (rest : Wal.Apply.PageMapping) :
    Wal.Apply.pagesLookup pid ((pid, buf) :: rest) = some buf := by
  simp [Wal.Apply.pagesLookup, List.find?]

theorem claim_C3_counterexample :
    Fixtures.imgNoApply.apply_image = false
    ∧ Fixtures.imgNoApply.bimg_info &&& 0x04 = 0
    ∧ Wal.Apply.apply_xlog_record [] Fixtures.recNoApply
        = .ok [(Fixtures.pid0, [9, 9] ++ List.replicate 8188 0 ++ [9, 9])]
    ∧ Wal.Apply.pagesLookup Fixtures.pid0
        [(Fixtures.pid0, [9, 9] ++ List.replicate 8188 0 ++ [9, 9])]
      = some ([9, 9] ++ List.replicate 8188 0 ++ [9, 9]) := by
  have hlen : (List.take 2 [9, 9, 9, 9] ++ List.replicate 8188 (0 : Nat)
      ++ List.drop 2 [9, 9, 9, 9]).length = 8192 := by
    simp only [List.length_append, List.length_replicate, List.length_take,
      List.length_drop, List.length_cons, List.length_nil]
    omega
  have happly : Wal.Apply.apply_image [] Fixtures.blkNoApply Fixtures.imgNoApply
      = .ok (Wal.Apply.pagesInsert Fixtures.pid0
          (List.take 2 [9, 9, 9, 9] ++ List.replicate 8188 0
            ++ List.drop 2 [9, 9, 9, 9]) []) := by
    simp only [Wal.Apply.apply_image, Fixtures.blkNoApply, Fixtures.imgNoApply]
    rw [if_neg (by decide), if_pos (by decide), if_neg (by decide), if_pos hlen]
  refine ⟨rfl, rfl, ?_, ?_⟩
  · unfold Wal.Apply.apply_xlog_record
    rw [if_neg (by decide)]
    simp only [Fixtures.recNoApply, Wal.Apply.apply_blocks_loop]
    rw [show Fixtures.blkNoApply.image = some Fixtures.imgNoApply from rfl]
    simp only [happly, Wal.Apply.apply_operation, Wal.Apply.apply_blocks_loop,
      Wal.Apply.pagesInsert, List.filter_nil]
    rw [show List.take 2 [9, 9, 9, 9] = ([9, 9] : List Nat) from rfl,
      show List.drop 2 [9, 9, 9, 9] = ([9, 9] : List Nat) from rfl]
  · exact pagesLookup_head Fixtures.pid0 _ []

theorem replicate_get? (n j : Nat) (a : Nat) (hj : j < n) :
    (List.replicate n a).get? j = some a := by
  induction n generalizing j with
  | zero => omega
  | succ n ih =>
    cases j with
    | zero => simp [List.replicate]
    | succ j => simpa [List.replicate] using ih j (by omega)

/-- C3 amended: for every block reference with a page identity whose
full-page image is not compressed and is internally consistent
(`bkp_image` holds `bimg_len` bytes, `hole_offset ≤ bimg_len`, and
`bimg_len + hole_length = 8192` — what the block decoder guarantees
for non-compressed images), `apply_image` inserts or replaces the page
at that identity REGARDLESS of the APPLY bit (no hypothesis mentions
it); the stored buffer copies the `bimg_len` image bytes, splices
`hole_length` zeros at `hole_offset` when `hole_length > 0`, is
exactly 8192 bytes long, and is all zero on the hole range. -/
theorem claim_C3_amended (m : Wal.Apply.PageMapping) (block : Wal.Blk.XLBData)
    (image : Wal.Blk.XLBImage) (pid : Wal.Blk.PageId)
    (hpid : block.page_id = some pid)
    (hcomp : image.bimg_info &&& 0x02 = 0)
    (hlen : image.bkp_image.length = image.bimg_len)
    (hho : image.hole_offset ≤ image.bimg_len)
    (hsum : image.bimg_len + image.hole_length = 8192) :
    ∃ buf, Wal.Apply.apply_image m block image = .ok (Wal.Apply.pagesInsert pid buf m)
      ∧ buf.length = 8192
      ∧ (∀ j, j < image.hole_length → buf.get? (image.hole_offset + j) = some 0)
      ∧ (image.hole_length = 0 → buf = image.bkp_image)
      ∧ (0 < image.hole_length →
          buf = image.bkp_image.take image.hole_offset
            ++ List.replicate image.hole_length 0
            ++ image.bkp_image.drop image.hole_offset) := by
  simp only [Wal.Apply.apply_image, hpid]
  rw [if_neg (by simp [hcomp])]
  by_cases hL : 0 < image.hole_length
  · rw [if_pos hL, if_neg (by omega)]
    have htake : (image.bkp_image.take image.hole_offset).length = image.hole_offset := by
      simp [List.length_take]
      omega
    have hdrop : (image.bkp_image.drop image.hole_offset).length
        = image.bimg_len - image.hole_offset := by
      simp [List.length_drop, hlen]
    have hbuflen : (image.bkp_image.take image.hole_offset
        ++ List.replicate image.hole_length 0
        ++ image.bkp_image.drop image.hole_offset).length = 8192 := by
      simp only [List.length_append, List.length_replicate, htake, hdrop]
      omega
    rw [if_pos hbuflen]
    refine ⟨_, rfl, hbuflen, ?_, by omega, fun _ => rfl⟩
    intro j hj
    rw [List.append_assoc]
    rw [List.get?_append_right (by omega)]
    rw [htake, Nat.add_sub_cancel_left]
    rw [List.get?_append (by simp [List.length_replicate]; omega)]
    exact replicate_get? _ _ _ hj
  · rw [if_neg hL]
    have h0 : image.hole_length = 0 := by omega
    have hbl : image.bkp_image.length = 8192 := by omega
    rw [if_pos hbl]
    exact ⟨image.bkp_image, rfl, hbl, fun j hj => by omega, fun _ => rfl,
      fun h => absurd h (by omega)⟩

/-- C3 witness: the amended fact at the hole-carrying image
`imgWithHole` (4 image bytes, 8188 zeros spliced at offset 2). -/
theorem claim_C3_witness :
    ∃ buf, Wal.Apply.apply_image [] Fixtures.blkWithHole Fixtures.imgWithHole
        = .ok (Wal.Apply.pagesInsert Fixtures.pid0 buf [])
      ∧ buf.length = 8192
      ∧ (∀ j, j < Fixtures.imgWithHole.hole_length →
          buf.get? (Fixtures.imgWithHole.hole_offset + j) = some 0)
      ∧ (Fixtures.imgWithHole.hole_length = 0 → buf = Fixtures.imgWithHole.bkp_image)
      ∧ (0 < Fixtures.imgWithHole.hole_length →
          buf = Fixtures.imgWithHole.bkp_image.take Fixtures.imgWithHole.hole_offset
            ++ List.replicate Fixtures.imgWithHole.hole_length 0
            ++ Fixtures.imgWithHole.bkp_image.drop Fixtures.imgWithHole.hole_offset) := by
  exact claim_C3_amended [] Fixtures.blkWithHole Fixtures.imgWithHole Fixtures.pid0
    (by decide) (by decide) (by decide) (by decide) (by decide)

set_option maxRecDepth 8000 in
/-- C7: the page `twoRecordPage` holds the records with xids 1 and 2
at increasing byte offsets, and the flat page parser yields them in
exactly that order; but the iterator of the segment reader, which pops
records off the END of the parsed vector (`Vec::pop`), yields the
SECOND record first and the first record second — the reverse of the
claimed increasing-offset order. -/
theorem claim_C7_reader_order :
    Wal.Flat.parse_xlog_records Fixtures.twoRecordPage
      = .ok (List.replicate 24 0) [Fixtures.flatStandbyRec 1, Fixtures.flatStandbyRec 2]
    ∧ Fixtures.flatStandbyRec 1 ≠ Fixtures.flatStandbyRec 2
    ∧ (Wal.Reader.reader_next Fixtures.twoRecordReader).1
        = some (Fixtures.flatStandbyRec 2)
    ∧ (Wal.Reader.reader_next
        (Wal.Reader.reader_next Fixtures.twoRecordReader).2).1
        = some (Fixtures.flatStandbyRec 1) := by
  refine ⟨by decide, by decide, by decide, by decide⟩

theorem le_u8_ok_drop {i rest : List Nat} {v : Nat}
    (h : Wal.le_u8 i = .ok rest v) : rest = i.drop 1 ∧ 1 ≤ i.length := by
  unfold Wal.le_u8 at h
  split at h
  · simp at h
  · simp only [Wal.PResult.ok.injEq] at h
    simp [← h.1]

theorem le_u32_ok_drop {i rest : List Nat} {v : Nat}
    (h : Wal.le_u32 i = .ok rest v) : rest = i.drop 4 ∧ 4 ≤ i.length := by
  unfold Wal.le_u32 at h
  split at h
  · simp only [Wal.PResult.ok.injEq] at h
    constructor
    · simp [← h.1]
    · simp
  · simp at h

theorem le_u64_ok_drop {i rest : List Nat} {v : Nat}
    (h : Wal.le_u64 i = .ok rest v) : rest = i.drop 8 ∧ 8 ≤ i.length := by
  unfold Wal.le_u64 at h
  split at h
  · simp only [Wal.PResult.ok.injEq] at h
    constructor
    · simp [← h.1]
    · simp
  · simp at h

theorem consume_padding_ok_drop {i : List Nat} {s : Nat} {rest : List Nat}
    (h : Wal.consume_padding i s = .ok rest ()) : rest = i.drop s := by
  unfold Wal.consume_padding at h
  split at h
  · rename_i hs
    simp only [Wal.PResult.ok.injEq] at h
    simp [hs, ← h.1]
  · obtain ⟨i1, pad, h1, h2⟩ := andThen_eq_ok h
    unfold Wal.takeBytes at h1
    split at h1
    · simp at h1
    · simp only [Wal.PResult.ok.injEq] at h1
      obtain ⟨h1a, _⟩ := h1
      split at h2
      · simp at h2
      · split at h2
        · simp at h2
        · simp only [Wal.PResult.ok.injEq] at h2
          rw [← h2.1, ← h1a]

theorem parse_xlog_record_header_ok {i rest : List Nat} {h : Wal.XLogRecordHeader}
    (hh : Wal.parse_xlog_record_header i = .ok rest h) :
    rest = i.drop 24 ∧ 24 ≤ i.length ∧ 24 ≤ h.xl_tot_len
      ∧ h.xl_tot_len - 24 ≤ i.length - 24 := by
  unfold Wal.parse_xlog_record_header at hh
  split at hh
  · simp at hh
  · rename_i hlen24
    have hlen24 : 24 ≤ i.length := by omega
    obtain ⟨i1, tot, h1, hh⟩ := andThen_eq_ok hh
    obtain ⟨hd1, _⟩ := le_u32_ok_drop h1
    split at hh
    · simp at hh
    · obtain ⟨i2, xid, h2, hh⟩ := andThen_eq_ok hh
      obtain ⟨hd2, _⟩ := le_u32_ok_drop h2
      obtain ⟨i3, prev, h3, hh⟩ := andThen_eq_ok hh
      obtain ⟨hd3, _⟩ := le_u64_ok_drop h3
      obtain ⟨i4, info, h4, hh⟩ := andThen_eq_ok hh
      obtain ⟨hd4, _⟩ := le_u8_ok_drop h4
      obtain ⟨i5, rmid, h5, hh⟩ := andThen_eq_ok hh
      obtain ⟨hd5, _⟩ := le_u8_ok_drop h5
      split at hh
      · simp at hh
      · obtain ⟨i6, u, h6, hh⟩ := andThen_eq_ok hh
        have hd6 : i6 = i5.drop 2 := by
          cases u
          exact consume_padding_ok_drop h6
        obtain ⟨i7, crc, h7, hh⟩ := andThen_eq_ok hh
        obtain ⟨hd7, _⟩ := le_u32_ok_drop h7
        split at hh
        · simp at hh
        · rename_i htot24
          simp only [] at hh
          split at hh
          · simp at hh
          · rename_i hdatalen
            simp only [Wal.PResult.ok.injEq] at hh
            obtain ⟨hrest, hval⟩ := hh
            have hi7 : i7 = i.drop 24 := by
              subst hd1 hd2 hd3 hd4 hd5 hd6 hd7
              simp [List.drop_drop]
            subst hval
            refine ⟨by rw [← hrest, hi7], hlen24, ?_, ?_⟩
            · show 24 ≤ tot
              omega
            · show tot - 24 ≤ i.length - 24
              rw [hi7] at hdatalen
              simp only [List.length_drop] at hdatalen
              omega

/-- C5 amended: after a successful `parse_xlog_record` on an input
slice of length L, the number of padding bytes consumed past the
record body is `(L - tot_len) mod 8` — the source computes it as
`i.len() % 8` on the remainder; this equals the claimed
`tot_len mod 8 == 0 ? 0 : 8 - tot_len mod 8` exactly when L is a
multiple of 8 (which holds for the 8-aligned byte ranges the decoder
is meant for, but for no others). -/
theorem claim_C5_amended (i rest : List Nat) (r : Wal.XLogRecord)
    (hp : Wal.parse_xlog_record i = .ok rest r) :
    r.header.xl_tot_len ≤ i.length
    ∧ rest.length
        = (i.length - r.header.xl_tot_len) - (i.length - r.header.xl_tot_len) % 8
    ∧ (i.length % 8 = 0 →
        i.length - r.header.xl_tot_len - rest.length
          = if r.header.xl_tot_len % 8 = 0 then 0 else 8 - r.header.xl_tot_len % 8) := by
  unfold Wal.parse_xlog_record at hp
  obtain ⟨i1, header, h1, hp⟩ := andThen_eq_ok hp
  obtain ⟨hd1, hlen24, htot, hdlen⟩ := parse_xlog_record_header_ok h1
  obtain ⟨i2, mb, h2, hp⟩ := andThen_eq_ok hp
  obtain ⟨i3, op, h3, hp⟩ := andThen_eq_ok hp
  obtain ⟨i4, u, h4, hp⟩ := andThen_eq_ok hp
  have hd4 : i4 = (i1.drop (header.xl_tot_len - 24)).drop
      ((i1.drop (header.xl_tot_len - 24)).length % 8) := by
    cases u
    exact consume_padding_ok_drop h4
  simp only [Wal.PResult.ok.injEq] at hp
  obtain ⟨hrest, hval⟩ := hp
  subst hval
  have hi1 : i1.drop (header.xl_tot_len - 24) = i.drop header.xl_tot_len := by
    rw [hd1, List.drop_drop]
    congr 1
    omega
  have hlen : (i.drop header.xl_tot_len).length = i.length - header.xl_tot_len := by
    simp
  have htotle : header.xl_tot_len ≤ i.length := by omega
  refine ⟨htotle, ?_, ?_⟩
  · show rest.length
      = (i.length - header.xl_tot_len) - (i.length - header.xl_tot_len) % 8
    rw [← hrest, hd4, hi1]
    simp only [List.length_drop]
  · intro hmod
    show i.length - header.xl_tot_len - rest.length
      = if header.xl_tot_len % 8 = 0 then 0 else 8 - header.xl_tot_len % 8
    rw [← hrest, hd4, hi1]
    simp only [List.length_drop]
    by_cases h0 : header.xl_tot_len % 8 = 0
    · rw [if_pos h0]
      omega
    · rw [if_neg h0]
      omega

/-- C5 counterexample: a well-formed record with `tot_len = 45` parsed
from a 46-byte slice succeeds with an empty remainder, so the decoder
consumed exactly 1 trailing padding byte — not the
`8 - 45 mod 8 = 3` bytes the claim requires for every well-formed
record. -/
theorem claim_C5_counterexample :
    Wal.parse_xlog_record Fixtures.input46 = .ok [] Fixtures.rec45
    ∧ Fixtures.input46.length = 46
    ∧ Fixtures.rec45.header.xl_tot_len = 45
    ∧ Fixtures.input46.length - Fixtures.rec45.header.xl_tot_len - ([] : List Nat).length = 1
    ∧ (8 - Fixtures.rec45.header.xl_tot_len % 8) % 8 = 3 := by
  refine ⟨by decide, by decide, by decide, by decide, by decide⟩

/-- C5 witness: the amended fact applied to the same record inside a
48-byte (8-aligned) slice, where the consumed padding is the claimed
`8 - 45 mod 8 = 3` bytes. -/
theorem claim_C5_witness :
    Wal.parse_xlog_record Fixtures.input48 = .ok [] Fixtures.rec45
    ∧ Fixtures.input48.length - Fixtures.rec45.header.xl_tot_len - ([] : List Nat).length
      = if Fixtures.rec45.header.xl_tot_len % 8 = 0 then 0
        else 8 - Fixtures.rec45.header.xl_tot_len % 8 := by
  have hp : Wal.parse_xlog_record Fixtures.input48 = .ok [] Fixtures.rec45 := by decide
  refine ⟨hp, ?_⟩
  exact (claim_C5_amended Fixtures.input48 [] Fixtures.rec45 hp).2.2 (by decide)


